import Mathlib

/-!
# Verification of the job-networker crawl pipeline

A shallow embedding, in Lean 4, of the parts of the `job-networker`
repository that the specification's testable properties talk about:

* the SQLite-backed store (`src/lib/database.ts`): tables, upsert by
  canonical URL, partial session updates, cascading deletes;
* the crawl orchestrator (the `api/crawl/start` route): the
  start-guard, the `startCrawlProcess` state machine and its progress
  writes;
* the extraction / resolution engine (`src/lib/linkedin-crawler.ts`):
  the company-card selector cascade, the per-card name/URL strategy
  cascade, connection-summary resolution and the fallback name
  synthesis.

Browser navigation and in-page DOM evaluation are external
collaborators; they are modelled as explicit environment functions
(`CrawlEnv`) returning `Except`-wrapped results, mirroring the
`try`/`catch` structure of the source.  JavaScript strings are
modelled as Lean `String`s and the handful of regular expressions the
code uses are implemented as direct scanning functions over `List
Char`, following the source regexes (leftmost match, greedy
repetition, `/i` via ASCII case folding).  `crypto.randomUUID` id
generation is modelled by a fresh-id counter on the store; `createdAt`
timestamps (real time) are omitted.
-/

namespace JobNetworker

/-! ## JavaScript string primitives -/

/-- `\s` of a JavaScript regex, restricted to the ASCII range
(space, tab, line feed, carriage return, vertical tab, form feed). -/
def jsSpace (c : Char) : Bool :=
  c = ' ' || c = '\t' || c = '\n' || c = '\x0d' || c = '\x0b' || c = '\x0c'

/-- ASCII `[A-Z]`. -/
def upperAZ (c : Char) : Bool := 'A' ≤ c && c ≤ 'Z'

/-- ASCII `[a-z]`. -/
def lowerAZ (c : Char) : Bool := 'a' ≤ c && c ≤ 'z'

/-- ASCII case folding, as used for `/i` regex flags and
`String.prototype.toLowerCase` on ASCII input. -/
def lowerChar (c : Char) : Char :=
  if upperAZ c then Char.ofNat (c.toNat + 32) else c

/-- Substring test on character lists (`String.prototype.includes`). -/
def listIncludes (hay needle : List Char) : Bool :=
  match hay with
  | [] => needle.isEmpty
  | _ :: t => needle.isPrefixOf hay || listIncludes t needle

/-- `hay.includes(needle)` of JavaScript. -/
def includesSub (hay needle : String) : Bool :=
  listIncludes hay.toList needle.toList

/-- `hay.toLowerCase().includes(needle)` for an ASCII-lower-case `needle`. -/
def includesCI (hay needle : String) : Bool :=
  listIncludes (hay.toList.map lowerChar) needle.toList

/-- `String.prototype.trim` on ASCII input: drop whitespace from both
ends. -/
def jsTrim (s : String) : String :=
  ⟨((s.toList.dropWhile jsSpace).reverse.dropWhile jsSpace).reverse⟩

/-- Case-insensitive literal match at the head of the list: returns the
rest of the input after the literal, or `none`. -/
def ciDropLit : List Char → List Char → Option (List Char)
  | [], l => some l
  | _ :: _, [] => none
  | p :: ps, c :: cs => if lowerChar c = lowerChar p then ciDropLit ps cs else none

/-- Digit-run parsing (`parseInt` applied to the digits captured by `(\d+)`). -/
def parseDigits (l : List Char) : Nat :=
  l.foldl (fun acc c => acc * 10 + (c.toNat - '0'.toNat)) 0

/-! ### The regexes of `processCompanyConnections`

`/(\d+)\s+(connections?|people)/i` — leftmost match, returning the
parsed count of the captured digit run.  Greedy `\d+`/`\s+` need no
backtracking here because the character class that follows each run
cannot match the run's own characters. -/

/-- Try `(\d+)\s+(connections?|people)` at the head of the input. -/
def numericUnitAt (l : List Char) : Option Nat :=
  let d := l.takeWhile Char.isDigit
  let r1 := l.dropWhile Char.isDigit
  if d.isEmpty then none else
    let w := r1.takeWhile jsSpace
    let r2 := r1.dropWhile jsSpace
    if w.isEmpty then none else
      if (ciDropLit "connection".toList r2).isSome || (ciDropLit "people".toList r2).isSome
      then some (parseDigits d) else none

/-- Leftmost match of `/(\d+)\s+(connections?|people)/i`, parsed count. -/
def firstNumericUnit : List Char → Option Nat
  | [] => none
  | c :: t =>
    match numericUnitAt (c :: t) with
    | some n => some n
    | none => firstNumericUnit t

/-- Try `\d+\s+connections?\s+work here` at the head of the input
(the guard of the company-page lookup in `processCompanyConnections`). -/
def connectionsWorkHereAt (l : List Char) : Bool :=
  let d := l.takeWhile Char.isDigit
  let r1 := l.dropWhile Char.isDigit
  if d.isEmpty then false else
    let w := r1.takeWhile jsSpace
    let r2 := r1.dropWhile jsSpace
    if w.isEmpty then false else
      match ciDropLit "connection".toList r2 with
      | none => false
      | some r3 =>
        -- greedy `s?`: consume a trailing s when present (without it `\s+` cannot start with 's')
        let r4 := match r3 with
          | c :: t => if lowerChar c = 's' then t else r3
          | [] => r3
        let w2 := r4.takeWhile jsSpace
        let r5 := r4.dropWhile jsSpace
        if w2.isEmpty then false else (ciDropLit "work here".toList r5).isSome

/-- `/\d+\s+connections?\s+work here/i.test(s)` — leftmost-scan version. -/
def matchesConnectionsWorkHereL : List Char → Bool
  | [] => false
  | c :: t => connectionsWorkHereAt (c :: t) || matchesConnectionsWorkHereL t

def matchesConnectionsWorkHere (s : String) : Bool :=
  matchesConnectionsWorkHereL s.toList

/-! ### `replace(/\s+(work here|were hired here).*$/i, '')`

The match needs a whitespace run followed by one of the two phrases;
`.*$` (no `s`/`m` flags) then requires the rest of the string to be free
of line terminators.  Backtracking inside `\s+` cannot help because both
phrases start with a non-space character, so the greedy run is exact. -/

def noLineTerminator (l : List Char) : Bool :=
  l.all (fun c => c ≠ '\n' && c ≠ '\x0d')

/-- Does `\s+(work here|were hired here).*$` match at the head of the input? -/
def workHereSuffixAt (l : List Char) : Bool :=
  match l with
  | [] => false
  | c :: _ =>
    jsSpace c &&
      (let r := l.dropWhile jsSpace
       match ciDropLit "work here".toList r with
       | some rest => noLineTerminator rest
       | none =>
         match ciDropLit "were hired here".toList r with
         | some rest => noLineTerminator rest
         | none => false)

/-- `s.replace(/\s+(work here|were hired here).*$/i, '')`: delete from the
leftmost match position to the end of the string. -/
def stripWorkHereSuffixL : List Char → List Char
  | [] => []
  | c :: t => if workHereSuffixAt (c :: t) then [] else c :: stripWorkHereSuffixL t

def stripWorkHereSuffix (s : String) : String :=
  ⟨stripWorkHereSuffixL s.toList⟩

/-- `s.replace(/^\d+\s+/, '')`. -/
def stripLeadingNumberL (l : List Char) : List Char :=
  let d := l.takeWhile Char.isDigit
  let r := l.dropWhile Char.isDigit
  if d.isEmpty then l else
    let w := r.takeWhile jsSpace
    if w.isEmpty then l else r.dropWhile jsSpace

def stripLeadingNumber (s : String) : String :=
  ⟨stripLeadingNumberL s.toList⟩

/-! ### `/^([A-Z][a-z]+ [A-Z][a-z]+)/` (anchored person-name shape) -/

/-- Anchored match of `^([A-Z][a-z]+ [A-Z][a-z]+)`, returning the captured
text.  The greedy `[a-z]+` runs are exact because the characters that
follow them (`' '`, end of capture) are not lower-case letters. -/
def anchoredNameCaptureL (l : List Char) : Option (List Char) :=
  match l with
  | [] => none
  | c1 :: t1 =>
    if upperAZ c1 then
      let low1 := t1.takeWhile lowerAZ
      let r1 := t1.dropWhile lowerAZ
      if low1.isEmpty then none else
        match r1 with
        | ' ' :: c2 :: t2 =>
          if upperAZ c2 then
            let low2 := t2.takeWhile lowerAZ
            if low2.isEmpty then none
            else some (c1 :: low1 ++ ' ' :: c2 :: low2)
          else none
        | _ => none
    else none

def anchoredNameCapture (s : String) : Option String :=
  (anchoredNameCaptureL s.toList).map fun l => ⟨l⟩

/-! ## Data model (`src/types/index.ts`, `initTables` in `src/lib/database.ts`)

Row ids (`crypto.randomUUID()` in the source) are modelled by a fresh-id
counter `Store.nextId`; `createdAt` timestamps are omitted (real time). -/

inductive Mode where
  | first_connections
  | friends_of_friends
deriving DecidableEq, Repr

inductive Status where
  | pending
  | running
  | completed
  | failed
deriving DecidableEq, Repr

structure CrawlSession where
  id : Nat
  mode : Mode
  status : Status
  progress : Int
  totalConnections : Option Int := none
  processedConnections : Option Int := none
  error : Option String := none
deriving DecidableEq, Repr

structure Connection where
  id : Nat
  crawlSessionId : Nat
  name : String
  headline : String
  profileUrl : String
  profileImageUrl : Option String := none
  connectionSource : Option String := none
  company : Option String := none
  companyUrl : Option String := none
  companyLogoUrl : Option String := none
  connectionDegree : Nat
  mutualConnection : Option String := none
  location : Option String := none
deriving DecidableEq, Repr

structure Company where
  id : Nat
  name : String
  linkedinUrl : String
  logoUrl : Option String := none
  description : Option String := none
  industry : Option String := none
  size : Option String := none
  location : Option String := none
  website : Option String := none
deriving DecidableEq, Repr

structure CompanyConnection where
  id : Nat
  companyId : Nat
  connectionId : Nat
  crawlSessionId : Nat
  connectionPath : String
deriving DecidableEq, Repr

/-- The four tables of the SQLite store, in row (insertion) order, plus
the fresh-id supply. -/
structure Store where
  sessions : List CrawlSession := []
  connections : List Connection := []
  companies : List Company := []
  companyConnections : List CompanyConnection := []
  nextId : Nat := 0
deriving DecidableEq, Repr

/-! ## `DatabaseManager` operations (`src/lib/database.ts`) -/

/-- `Omit<Company, 'id' | 'createdAt'>` — argument of `createCompany`. -/
structure CompanyInput where
  name : String
  linkedinUrl : String
  logoUrl : Option String := none
  description : Option String := none
  industry : Option String := none
  size : Option String := none
  location : Option String := none
  website : Option String := none
deriving DecidableEq, Repr

/-- `Omit<Connection, 'id' | 'createdAt'>` — argument of `createConnection`. -/
structure ConnectionInput where
  crawlSessionId : Nat
  name : String
  headline : String
  profileUrl : String
  profileImageUrl : Option String := none
  connectionSource : Option String := none
  company : Option String := none
  companyUrl : Option String := none
  companyLogoUrl : Option String := none
  connectionDegree : Nat
  mutualConnection : Option String := none
  location : Option String := none
deriving DecidableEq, Repr

/-- `Omit<CompanyConnection, 'id' | 'createdAt'>`. -/
structure CompanyConnectionInput where
  companyId : Nat
  connectionId : Nat
  crawlSessionId : Nat
  connectionPath : String
deriving DecidableEq, Repr

/-- `createCompany`: `INSERT OR REPLACE INTO companies ...` with
`linkedin_url TEXT NOT NULL UNIQUE`.  SQLite's `OR REPLACE` deletes any
row conflicting on the unique column before inserting; with foreign-key
enforcement on (better-sqlite3's default) that delete cascades to
`company_connections` rows referencing the replaced company id. -/
def createCompany (store : Store) (c : CompanyInput) : Store × Nat :=
  let id := store.nextId
  let replacedIds := (store.companies.filter
    (fun r => r.linkedinUrl == c.linkedinUrl)).map (fun r => r.id)
  let row : Company :=
    { id := id, name := c.name, linkedinUrl := c.linkedinUrl, logoUrl := c.logoUrl,
      description := c.description, industry := c.industry, size := c.size,
      location := c.location, website := c.website }
  ({ store with
      companies := store.companies.filter (fun r => !(r.linkedinUrl == c.linkedinUrl)) ++ [row],
      companyConnections := store.companyConnections.filter
        (fun cc => !(replacedIds.contains cc.companyId)),
      nextId := id + 1 },
   id)

/-- `getCompanyByLinkedInUrl`: `SELECT ... WHERE linkedin_url = ?`, first row. -/
def getCompanyByLinkedInUrl (store : Store) (url : String) : Option Company :=
  store.companies.find? (fun r => r.linkedinUrl == url)

/-- `createConnection`: plain `INSERT INTO connections`. -/
def createConnection (store : Store) (c : ConnectionInput) : Store × Nat :=
  let id := store.nextId
  let row : Connection :=
    { id := id, crawlSessionId := c.crawlSessionId, name := c.name,
      headline := c.headline, profileUrl := c.profileUrl,
      profileImageUrl := c.profileImageUrl, connectionSource := c.connectionSource,
      company := c.company, companyUrl := c.companyUrl,
      companyLogoUrl := c.companyLogoUrl, connectionDegree := c.connectionDegree,
      mutualConnection := c.mutualConnection, location := c.location }
  ({ store with connections := store.connections ++ [row], nextId := id + 1 }, id)

/-- `createCompanyConnection`: plain `INSERT INTO company_connections`. -/
def createCompanyConnection (store : Store) (cc : CompanyConnectionInput) : Store × Nat :=
  let id := store.nextId
  let row : CompanyConnection :=
    { id := id, companyId := cc.companyId, connectionId := cc.connectionId,
      crawlSessionId := cc.crawlSessionId, connectionPath := cc.connectionPath }
  ({ store with companyConnections := store.companyConnections ++ [row], nextId := id + 1 }, id)

/-- `getCrawlSession`: `SELECT ... WHERE id = ?`. -/
def getCrawlSession (store : Store) (id : Nat) : Option CrawlSession :=
  store.sessions.find? (fun s => s.id == id)

/-- `Partial<CrawlSession>` as consumed by `updateCrawlSession`: a field is
written exactly when it is not `undefined`. -/
structure SessionUpdates where
  status : Option Status := none
  progress : Option Int := none
  totalConnections : Option Int := none
  processedConnections : Option Int := none
  error : Option String := none
deriving DecidableEq, Repr

/-- One row's view of `UPDATE crawl_sessions SET <provided fields> WHERE id = ?`. -/
def applyUpdates (s : CrawlSession) (u : SessionUpdates) : CrawlSession :=
  { s with
    status := u.status.getD s.status,
    progress := u.progress.getD s.progress,
    totalConnections := match u.totalConnections with
      | some v => some v
      | none => s.totalConnections,
    processedConnections := match u.processedConnections with
      | some v => some v
      | none => s.processedConnections,
    error := match u.error with
      | some e => some e
      | none => s.error }

/-- `updateCrawlSession`. -/
def updateCrawlSession (store : Store) (id : Nat) (u : SessionUpdates) : Store :=
  { store with
    sessions := store.sessions.map (fun s => if s.id == id then applyUpdates s u else s) }

/-- `deleteCrawlSession`: `DELETE FROM crawl_sessions WHERE id = ?`.
Foreign keys (enforced by default under better-sqlite3) cascade the
delete to `connections` and `company_connections` rows of the session,
and further from each deleted connection to `company_connections` rows
referencing it.  `companies` has no foreign key to sessions and is
untouched. -/
def deleteCrawlSession (store : Store) (id : Nat) : Store :=
  let deadConnIds := (store.connections.filter
    (fun c => c.crawlSessionId == id)).map (fun c => c.id)
  { store with
    sessions := store.sessions.filter (fun s => !(s.id == id)),
    connections := store.connections.filter (fun c => !(c.crawlSessionId == id)),
    companyConnections := store.companyConnections.filter
      (fun cc => !(cc.crawlSessionId == id) && !(deadConnIds.contains cc.connectionId)) }

/-! ## Extraction records and the browser environment
(`src/lib/linkedin-crawler.ts`)

Navigation plus in-page `page.evaluate` extraction is a call into the
browser-automation collaborator; each such round trip is modelled as an
environment function returning `Except String _` (`error` = the awaited
promise rejected, e.g. a navigation failure). -/

/-- An element of a card's `connectionNames` array: either a resolved
(or regex-extracted) person, or a connection-summary placeholder whose
`profileUrl` is a people-search page and `isConnectionSummary` is set. -/
structure ConnEntry where
  name : String
  profileUrl : String
  profileImageUrl : Option String := none
  isConnectionSummary : Bool := false
  connectionSource : Option String := none
deriving DecidableEq, Repr

/-- `Company & { connectionInfo, connectionNames }` as returned by
`extractCompaniesFromSearch`. -/
structure CompanyCard where
  name : String
  linkedinUrl : String
  logoUrl : Option String := none
  description : Option String := none
  connectionInfo : String
  connectionNames : List ConnEntry
deriving DecidableEq, Repr

/-- A person record produced by an in-page extraction pass (name already
validated by the in-page name-shape checks). -/
structure RawPerson where
  name : String
  profileUrl : String
  profileImageUrl : Option String := none
deriving DecidableEq, Repr

/-- The current employer block scraped from a profile page
(`[data-test-experience-item]`): text and href may be empty strings. -/
structure CompanyInfoRaw where
  name : String
  linkedinUrl : String
deriving DecidableEq, Repr

/-- The browser-automation collaborator: each field is one
navigate-and-evaluate round trip of the crawler.  `Except.error` models
the awaited call rejecting (navigation error, timeout, ...). -/
structure CrawlEnv where
  /-- `extractIndividualConnections`: goto a people-search URL, scroll,
  run the person-card extraction cascade in-page. -/
  peopleSearch : String → Except String (List RawPerson)
  /-- `extractConnectionsFromCompanyPage`: goto a company page and
  collect validated `/in/` profile links. -/
  companyPage : String → Except String (List RawPerson)
  /-- `analyzeFriendNetwork`: goto a profile and read the first
  `[data-test-experience-item]` block (`none` when absent). -/
  profileCompany : String → Except String (Option CompanyInfoRaw)

/-- The create-or-get pattern shared by `processCompanyConnections` and
`analyzeFriendNetwork`: look up the company by canonical URL and reuse
its identifier when found, otherwise `createCompany`. -/
def upsertCompany (store : Store) (c : CompanyInput) : Store × Nat :=
  match getCompanyByLinkedInUrl store c.linkedinUrl with
  | some existing => (store, existing.id)
  | none => createCompany store c

/-! ## Connection-summary resolution (`processConnectionSummaryLinks`,
`extractIndividualConnections`) -/

/-- `extractIndividualConnections(connectionUrl, connectionSource)`:
navigate to the people-search page and extract individual profiles.
The whole body sits in a `try`/`catch` whose handler logs and
`return []` — a navigation failure therefore yields the empty list
rather than a rejected promise. -/
def extractIndividualConnections (env : CrawlEnv) (connectionUrl source : String) :
    List ConnEntry :=
  match env.peopleSearch connectionUrl with
  | .error _ => []
  | .ok people => people.map fun p =>
      { name := p.name, profileUrl := p.profileUrl, profileImageUrl := p.profileImageUrl,
        isConnectionSummary := false, connectionSource := some source }

/-- `processConnectionSummaryLinks(company)`: resolve each
connection-summary placeholder into individual profiles.  The source
wraps the `extractIndividualConnections` call in `try`/`catch` and keeps
the original placeholder in the `catch` branch; since
`extractIndividualConnections` catches internally and returns `[]`, that
branch never runs and the summary contributes whatever list (possibly
empty) the extraction produced. -/
def processConnectionSummaryLinks (env : CrawlEnv) (company : CompanyCard) : CompanyCard :=
  { company with
    connectionNames := company.connectionNames.flatMap fun c =>
      if c.isConnectionSummary && includesSub c.profileUrl "linkedin.com/search/results/people"
      then extractIndividualConnections env c.profileUrl c.name
      else [c] }

/-- `extractConnectionsFromCompanyPage(companyUrl)`: best-effort name
harvest from the company page, capped at 5 (`slice(0, 5)`); failures are
caught and yield `[]`. -/
def extractConnectionsFromCompanyPage (env : CrawlEnv) (companyUrl : String) :
    List ConnEntry :=
  match env.companyPage companyUrl with
  | .error _ => []
  | .ok people =>
    (people.map fun p =>
      { name := p.name, profileUrl := p.profileUrl, profileImageUrl := none,
        isConnectionSummary := false, connectionSource := none : ConnEntry }).take 5

/-! ## Fallback name synthesis (`processCompanyConnections`, else-branch) -/

/-- The `connectionName` computed by the fallback branch of
`processCompanyConnections` when a company card carries no connection
names at all. -/
def fallbackConnectionName (connectionInfo : String) : String :=
  if includesSub connectionInfo "connection" || includesSub connectionInfo "people" then
    match firstNumericUnit connectionInfo.toList with
    | some count =>
      if count = 1 then "1st Degree Connection" else toString count ++ " Connections"
    | none =>
      let stripped := jsTrim (stripLeadingNumber (stripWorkHereSuffix connectionInfo))
      if includesCI stripped "connection" then "Your Network Connection"
      else if includesCI stripped "people" then "Network Contact"
      else stripped
  else
    match anchoredNameCapture connectionInfo with
    | some nm => nm
    | none => "Network Connection"

/-- Modelled from the spec's words, for comparison with the code's
guard: the info text "matches a `<N> connections/people ... work/hired
here` pattern", read as: the leftmost `<N> connections/people` count
occurrence, provided a work/hired-here phrase also occurs in the text. -/
def specCountPattern (s : String) : Option Nat :=
  match firstNumericUnit s.toList with
  | some n =>
    if includesCI s "work here" || includesCI s "hired here" then some n else none
  | none => none

/-- The per-name body of the `for (const connection of company.connectionNames)`
loop: one `createConnection` plus one `createCompanyConnection` per entry. -/
def createNamedConnections (sessionId companyId : Nat) (company : CompanyCard) :
    Store → List ConnEntry → Store
  | st, [] => st
  | st, c :: rest =>
    let res := createConnection st
      { crawlSessionId := sessionId, name := c.name, headline := company.connectionInfo,
        profileUrl := c.profileUrl, profileImageUrl := c.profileImageUrl,
        connectionSource := c.connectionSource, connectionDegree := 1,
        company := some company.name, companyUrl := some company.linkedinUrl }
    let st2 := (createCompanyConnection res.1
      { companyId := companyId, connectionId := res.2, crawlSessionId := sessionId,
        connectionPath := "You -> " ++ c.name }).1
    createNamedConnections sessionId companyId company st2 rest

/-- The persistence tail of `processCompanyConnections`: one
`Connection` plus `CompanyConnection` pair per name when any names
exist, otherwise the single synthesized fallback pair. -/
def persistCompanyConnectionRows (store1 : Store) (sessionId companyId : Nat)
    (company : CompanyCard) (names : List ConnEntry) : Store :=
  if names.isEmpty then
    let connectionName := fallbackConnectionName company.connectionInfo
    let res := createConnection store1
      { crawlSessionId := sessionId, name := connectionName,
        headline := company.connectionInfo, profileUrl := "",
        profileImageUrl := none, connectionSource := none, connectionDegree := 1,
        company := some company.name, companyUrl := some company.linkedinUrl }
    (createCompanyConnection res.1
      { companyId := companyId, connectionId := res.2, crawlSessionId := sessionId,
        connectionPath := "You -> " ++ connectionName }).1
  else
    createNamedConnections sessionId companyId company store1 names

/-- `processCompanyConnections(sessionId, company)`: company upsert,
optional company-page name lookup, then either one row pair per named
connection or a single synthesized fallback pair. -/
def processCompanyConnections (env : CrawlEnv) (store : Store) (sessionId : Nat)
    (company : CompanyCard) : Store :=
  -- Create or get company record (lookup by canonical URL, reuse id if present).
  let upserted := upsertCompany store
    { name := company.name, linkedinUrl := company.linkedinUrl,
      logoUrl := company.logoUrl, description := company.description }
  -- If no names were found and the info text matches /\d+\s+connections?\s+work here/i,
  -- try the company page for actual names (used only when non-empty).
  let names :=
    if company.connectionNames.isEmpty &&
        matchesConnectionsWorkHere company.connectionInfo then
      let actual := extractConnectionsFromCompanyPage env company.linkedinUrl
      if actual.isEmpty then company.connectionNames else actual
    else company.connectionNames
  persistCompanyConnectionRows upserted.1 sessionId upserted.2 company names

/-! ## Friends-of-friends pieces (`extractDirectConnections`,
`analyzeFriendNetwork`) -/

/-- One `[data-test-member-card]` element, by the queries the extractor
runs against it. -/
structure MemberCard where
  /-- text of `a span[aria-hidden="true"]` (`none` when the element is absent) -/
  nameSpan : Option String := none
  /-- `.href` of the first `a` (`none` when there is no anchor) -/
  anchorHref : Option String := none
  /-- text of `[data-test-member-headline]` -/
  headlineText : Option String := none
deriving DecidableEq, Repr

/-- `extractDirectConnections`: in-page pass over the member cards; a
card missing its name span or anchor, or with empty name/URL, is
skipped.  The `id`/`crawlSessionId` placeholders (`''` in the source)
are modelled as `0`. -/
def extractDirectConnections (cards : List MemberCard) : List Connection :=
  cards.flatMap fun card =>
    match card.nameSpan, card.anchorHref with
    | some rawName, some href =>
      let name := jsTrim rawName
      let headline := (card.headlineText.map jsTrim).getD ""
      if !name.isEmpty && !href.isEmpty then
        [{ id := 0, crawlSessionId := 0, name := name, headline := headline,
           profileUrl := href, connectionDegree := 1 }]
      else []
    | _, _ => []

/-- `analyzeFriendNetwork(sessionId, connection)`: visit the profile,
read the current-employer block, and persist a Company / Connection /
CompanyConnection triple; every failure (caught by the enclosing
`try`/`catch`) and every absent or empty-name employer block leaves the
store untouched. -/
def analyzeFriendNetwork (env : CrawlEnv) (store : Store) (sessionId : Nat)
    (connection : Connection) : Store :=
  match env.profileCompany connection.profileUrl with
  | .error _ => store
  | .ok none => store
  | .ok (some info) =>
    if info.name.isEmpty then store
    else
      let upserted := upsertCompany store { name := info.name, linkedinUrl := info.linkedinUrl }
      let res := createConnection upserted.1
        { crawlSessionId := sessionId, name := connection.name,
          headline := connection.headline, profileUrl := connection.profileUrl,
          profileImageUrl := none, connectionSource := none, connectionDegree := 1,
          company := some info.name, companyUrl := some info.linkedinUrl }
      (createCompanyConnection res.1
        { companyId := upserted.2, connectionId := res.2, crawlSessionId := sessionId,
          connectionPath := "You -> " ++ connection.name ++ " works here" }).1

/-! ## Crawl orchestrator (`startCrawlProcess` and the start route,
`src/app/api/crawl/start/route.ts`) -/

/-- `Math.round` on the (rational-valued) progress expressions the
crawler reports: round half away from zero towards `+∞` equals
`⌊x + 1/2⌋` for every real argument. -/
def jsRound (q : ℚ) : Int := ⌊q + 1 / 2⌋

/-- The message of the `Error` the mode crawl function throws when
anything inside it fails: both crawl functions re-wrap the inner error. -/
def crawlFailureMessage (mode : Mode) (inner : String) : String :=
  match mode with
  | .first_connections => "First degree crawl failed: " ++ inner
  | .friends_of_friends => "Friends of friends crawl failed: " ++ inner

/-- What the awaited crawl run did, seen from `startCrawlProcess`:
either `initialize()`/`login()` rejected before the `progress: 5` write,
or the mode crawl function ran, reported `reports` through the progress
callback, and then returned (`ok`) or threw with inner message `inner`
(`error inner`, wrapped by `crawlFailureMessage`). -/
inductive CrawlOutcome where
  | setupFailure (msg : String)
  | crawlRun (reports : List ℚ) (result : Except String Unit)

/-- `startCrawlProcess(sessionId, mode, credentials, crawler)`: set the
session running, apply the progress callbacks
(`progress: Math.round(progress)`), and finish with the
completed/failed terminal update; the `catch` branch writes `status`
and `error` only, leaving `progress` at its last written value. -/
def startCrawlProcess (store : Store) (sessionId : Nat) (mode : Mode)
    (outcome : CrawlOutcome) : Store :=
  let s1 := updateCrawlSession store sessionId { status := some .running, progress := some 0 }
  match outcome with
  | .setupFailure msg =>
    updateCrawlSession s1 sessionId { status := some .failed, error := some msg }
  | .crawlRun reports result =>
    let s2 := updateCrawlSession s1 sessionId { progress := some 5 }
    let s3 := reports.foldl
      (fun st r => updateCrawlSession st sessionId { progress := some (jsRound r) }) s2
    match result with
    | .ok _ =>
      updateCrawlSession s3 sessionId { status := some .completed, progress := some 100 }
    | .error inner =>
      updateCrawlSession s3 sessionId
        { status := some .failed, error := some (crawlFailureMessage mode inner) }

/-- The store-relevant core of the start route's `POST` handler:
404 when the session is unknown, 400 when it is already `running`,
otherwise hand off to `startCrawlProcess` with the session's mode. -/
def postStartCrawl (store : Store) (sessionId : Nat) (outcome : CrawlOutcome) : Store :=
  match getCrawlSession store sessionId with
  | none => store
  | some s =>
    if s.status = .running then store
    else startCrawlProcess store sessionId s.mode outcome

/-- The raw values `crawlFirstDegreeConnections` feeds to its progress
callback on a run that finds `n` companies and succeeds:
`0`, `10`, `30`, `60`, then
`60 + (processedCount / Math.max(companies.length, 1)) * 35` per
company, then `100`. -/
def firstDegreeReports (n : Nat) : List ℚ :=
  [0, 10, 30, 60] ++
    (List.range n).map (fun k : ℕ => 60 + (((k : ℚ) + 1) / max (n : ℚ) 1) * 35) ++
  [100]

/-- The full sequence of `progress` values written to the session row by
a successful `first_connections` run: the orchestrator's `0` (with
`running`) and `5`, the rounded callback reports, and the final `100`
written with `completed`. -/
def firstDegreeProgressWrites (n : Nat) : List Int :=
  0 :: 5 :: ((firstDegreeReports n).map jsRound ++ [100])

/-! ## The company-card container cascade (`extractCompaniesFromSearch`) -/

/-- The ranked container selector list (`possibleSelectors`), in source
order; pattern #7 (1-based) is `".search-results li"`. -/
def possibleSelectors : List String :=
  [ "[data-test-result-container]"
  , ".reusable-search__result-container"
  , ".search-result__wrapper"
  , ".entity-result"
  , "[data-chameleon-result-urn]"
  , "li[data-row]"
  , ".search-results li"
  , ".org-company-card"
  , ".search-results__list li"
  , "[data-control-name=\"search_srp_result\"]"
  , ".app-aware-link"
  , "div[data-view-name=\"search-entity-result\"]"
  , ".artdeco-entity-lockup"
  , ".org-top-card-primary-content__entities li"
  , "li.reusable-search__result-container" ]

/-- The `for (const selector of possibleSelectors)` loop: first selector
whose `querySelectorAll` result is non-empty wins, with its elements. -/
def findFirstSelector {α : Type} (query : String → List α) :
    List String → Option (String × List α)
  | [] => none
  | s :: rest =>
    let elements := query s
    if elements.isEmpty then findFirstSelector query rest else some (s, elements)

/-- `companyCards` selection of `extractCompaniesFromSearch`: the
document is abstracted to its `querySelectorAll` function. -/
def selectCompanyCards {α : Type} (query : String → List α) :
    Option (String × List α) :=
  findFirstSelector query possibleSelectors

/-! ## The per-card (name, URL) strategy cascade
(`extractCompaniesFromSearch`, strategies 1–6 and the final filter)

A DOM element only ever contributes its `textContent` or its `.href`
property to this cascade, so elements are modelled by those strings;
`querySelector` results that may be absent are `Option String`
(`some ""` = element present with empty text / missing `href`
attribute, whose `.href` property is `""`). -/

/-- One `a` element of a card, by the sub-queries the cascade runs on it. -/
structure Anchor where
  /-- does the element carry an `href` attribute (`a[href]` selector)? -/
  hasHrefAttr : Bool := true
  /-- the `.href` property (`""` when the attribute is absent) -/
  href : String := ""
  /-- `textContent` -/
  text : String := ""
  /-- `textContent` of `span[aria-hidden="true"]` inside, when present -/
  spanAriaHiddenTrue : Option String := none
  /-- `textContent` of `span:not([aria-hidden="false"])` inside -/
  spanNotAriaHiddenFalse : Option String := none
  /-- `textContent` of `.entity-result__title-text span` inside -/
  titleTextSpan : Option String := none
  /-- `textContent` of `[data-anonymize="company-name"]` inside -/
  dataAnonymizeName : Option String := none
  /-- `textContent` of the first `span` inside -/
  firstSpan : Option String := none
  /-- `textContent` of the first child element (`*`), when any -/
  firstChild : Option String := none
deriving DecidableEq, Repr

/-- One heading matched by `h3, h4, .entity-result__title-text,
[data-test-result-title]` (strategy 3). -/
structure Heading where
  text : String := ""
  /-- `.href` of the first `a` inside the heading (`some ""` = anchor
  present without `href`), `none` = no anchor inside -/
  innerAnchorHref : Option String := none
  /-- the heading's own `.href` when the heading element is itself an
  anchor (`none` = `undefined` on a non-anchor element) -/
  selfHref : Option String := none
deriving DecidableEq, Repr

/-- One company card, abstracted to the query results the cascade reads. -/
structure Card where
  /-- `querySelector('a[data-test-app-aware-link] span[aria-hidden="true"]')` -/
  s1NameText : Option String := none
  /-- `.href` of `querySelector('a[data-test-app-aware-link]')` -/
  s1LinkHref : Option String := none
  /-- `querySelectorAll('a')`, in document order -/
  anchors : List Anchor := []
  /-- `querySelectorAll('h3, h4, .entity-result__title-text, [data-test-result-title]')` -/
  headings : List Heading := []
  /-- `querySelector('h3')` -/
  h3Text : Option String := none
  /-- `querySelector('h4')` -/
  h4Text : Option String := none
  /-- `querySelector('[data-test-result-title]')` -/
  resultTitleText : Option String := none
  /-- `querySelectorAll('span')` texts, in document order -/
  spanTexts : List String := []
deriving DecidableEq, Repr

/-- First candidate element with non-empty trimmed `textContent`
(`if (text && text.length > 0)`), returning its raw text. -/
def firstNonEmptyText : List (Option String) → Option String
  | [] => none
  | none :: rest => firstNonEmptyText rest
  | some t :: rest => if (jsTrim t).isEmpty then firstNonEmptyText rest else some t

/-- Strategy 2's `possibleNameElements` probe order inside the winning
company anchor. -/
def s2NameCandidates (a : Anchor) : List (Option String) :=
  [a.spanAriaHiddenTrue, a.spanNotAriaHiddenFalse, a.titleTextSpan,
   a.firstSpan, a.firstChild, some a.text]

/-- Strategy 4's `possibleNameElements` probe order. -/
def s4NameCandidates (a : Anchor) : List (Option String) :=
  [a.spanAriaHiddenTrue, a.titleTextSpan, a.dataAnonymizeName,
   a.firstSpan, some a.text]

/-- Strategy 5's name filter: non-empty trimmed text with no `•` and no
`connection` substring. -/
def s5Accepts (t : String) : Bool :=
  !(jsTrim t).isEmpty && !includesSub (jsTrim t) "•" && !includesSub (jsTrim t) "connection"

/-- The six-strategy cascade locating the card's `(nameElement,
linkElement)` pair; each strategy runs only while one of the two is
still missing, and the pair is represented by the name element's
`textContent` and the link element's `.href`. -/
def cascadeNameLink (card : Card) : Option String × Option String :=
  -- Strategy 1: a[data-test-app-aware-link] with its aria-hidden span.
  let st1 : Option String × Option String := (card.s1NameText, card.s1LinkHref)
  -- Strategy 2: first anchor whose href contains '/company/'.
  let st2 :=
    if st1.1.isNone || st1.2.isNone then
      match card.anchors.find? (fun a => includesSub a.href "/company/") with
      | some a =>
        (match firstNonEmptyText (s2NameCandidates a) with
         | some t => some t
         | none => st1.1,
         some a.href)
      | none => st1
    else st1
  -- Strategy 3: a heading whose (inner or own) anchor has a truthy href.
  let st3 :=
    if st2.1.isNone || st2.2.isNone then
      match card.headings.find? (fun h =>
          !((h.innerAnchorHref.getD (h.selfHref.getD "")).isEmpty)) with
      | some h => (some h.text, some (h.innerAnchorHref.getD (h.selfHref.getD "")))
      | none => st2
    else st2
  -- Strategy 4: first anchor pointing at a /company/ or /school/ profile.
  let st4 :=
    if st3.1.isNone || st3.2.isNone then
      match card.anchors.find? (fun a =>
          includesSub a.href "/company/" || includesSub a.href "/school/") with
      | some a =>
        (match firstNonEmptyText (s4NameCandidates a) with
         | some t => some t
         | none => st3.1,
         some a.href)
      | none => st3
    else st3
  -- Strategy 5: company link plus a name found elsewhere in the card.
  let st5 :=
    if st4.1.isNone || st4.2.isNone then
      match (card.anchors.filter (fun a => a.hasHrefAttr)).find?
          (fun a => includesSub a.href "/company/") with
      | some companyLink =>
        let cands := [card.h3Text, card.h4Text, card.resultTitleText] ++
          (card.spanTexts.filter (fun t => 2 < (jsTrim t).length && (jsTrim t).length < 100)).map
            some ++
          [some companyLink.text]
        (match cands.findSome? (fun c => match c with
            | some t => if s5Accepts t then some t else none
            | none => none) with
         | some t => some t
         | none => st4.1,
         some companyLink.href)
      | none => st4
    else st4
  -- Strategy 6: any internal link that is not a profile or post link.
  if st5.1.isNone || st5.2.isNone then
    match (card.anchors.filter (fun a => a.hasHrefAttr)).find? (fun a =>
        !a.href.isEmpty && includesSub a.href "linkedin.com" &&
        !includesSub a.href "/in/" && !includesSub a.href "/posts/") with
    | some a => (some (a.firstChild.getD a.text), some a.href)
    | none => st5
  else st5

/-- A provisional company record accepted by the final filter (the
fields beyond `(name, linkedinUrl)` — logo, description, connection
info/names — do not influence whether a card is kept, and are extracted
by code outside this claim's scope). -/
structure CompanyCandidate where
  name : String
  linkedinUrl : String
deriving DecidableEq, Repr

/-- The per-card tail of `extractCompaniesFromSearch`: materialise
`name`/`linkedinUrl` from the cascade result and apply the final guard
`name && name.length > 1 && linkedinUrl &&
linkedinUrl.includes('linkedin.com/company/')`. -/
def extractCardCompany (card : Card) : Option CompanyCandidate :=
  let pair := cascadeNameLink card
  match pair.1, pair.2 with
  | some rawName, some href =>
    let name := jsTrim rawName
    let linkedinUrl := href
    if !name.isEmpty && 1 < name.length && !linkedinUrl.isEmpty &&
        includesSub linkedinUrl "linkedin.com/company/"
    then some { name := name, linkedinUrl := linkedinUrl }
    else none
  | _, _ => none

/-- The card loop of `extractCompaniesFromSearch`: cards whose cascade
or guard fails are silently dropped. -/
def companiesFromCards (cards : List Card) : List CompanyCandidate :=
  cards.filterMap extractCardCompany

/-! ## Concrete data used by witnesses and counterexamples -/

/-- A stored company row, for concrete evaluation. -/
def acmeCompanyRow : Company :=
  { id := 7, name := "Acme Corp", linkedinUrl := "https://www.linkedin.com/company/acme/" }

/-- A one-company store. -/
def acmeStore : Store := { companies := [acmeCompanyRow], nextId := 8 }

/-- A freshly-extracted card for the same canonical URL. -/
def acmeInput : CompanyInput :=
  { name := "Acme Corporation", linkedinUrl := "https://www.linkedin.com/company/acme/" }

/-- The empty store. -/
def emptyStore : Store := {}

/-- A browser environment in which every navigation rejects. -/
def failingEnv : CrawlEnv :=
  { peopleSearch := fun _ => .error "net::ERR_NAME_NOT_RESOLVED"
    companyPage := fun _ => .error "net::ERR_NAME_NOT_RESOLVED"
    profileCompany := fun _ => .error "net::ERR_NAME_NOT_RESOLVED" }

/-- A company card carrying exactly one connection-summary placeholder. -/
def summaryCard : CompanyCard :=
  { name := "Acme Corp"
    linkedinUrl := "https://www.linkedin.com/company/acme/"
    connectionInfo := "2 connections work here"
    connectionNames :=
      [ { name := "2 connections work here"
          profileUrl := "https://www.linkedin.com/search/results/people/?currentCompany=123"
          isConnectionSummary := true } ] }

/-- A company card with no connection names whose info text contains
the word `connection` but no count — the input separating the code's
fallback from the claim's. -/
def betaCard : CompanyCard :=
  { name := "Beta LLC"
    linkedinUrl := "https://www.linkedin.com/company/beta/"
    connectionInfo := "connections work here"
    connectionNames := [] }

/-- A document in which only container pattern #7 and the later pattern
#11 match anything. -/
def patternSevenQuery : String → List Nat := fun s =>
  if s = ".search-results li" then [0]
  else if s = ".app-aware-link" then [1, 2]
  else []

/-- A member card of the connections list. -/
def memberCardDemo : MemberCard :=
  { nameSpan := some "Jane Doe"
    anchorHref := some "https://www.linkedin.com/in/janedoe/"
    headlineText := some "Engineer" }

/-- A company card whose primary (strategy 1) selectors resolve. -/
def validCompanyCard : Card :=
  { s1NameText := some "Acme Corp"
    s1LinkHref := some "https://www.linkedin.com/company/acme/" }

/-- The provisional record extracted from `validCompanyCard`. -/
def acmeCandidate : CompanyCandidate :=
  { name := "Acme Corp", linkedinUrl := "https://www.linkedin.com/company/acme/" }

/-- A card whose only link targets a `/school/` profile: strategy 4
wins with the school link, and the final filter must drop the card. -/
def schoolCard : Card :=
  { anchors :=
      [ { hasHrefAttr := true
          href := "https://www.linkedin.com/school/mit/"
          text := "MIT"
          spanAriaHiddenTrue := some "MIT" } ] }

/-- A store holding two crawl sessions with one connection and one
junction row each, sharing one company. -/
def twoSessionStore : Store :=
  { sessions :=
      [ { id := 1, mode := .first_connections, status := .completed, progress := 100 }
      , { id := 2, mode := .first_connections, status := .completed, progress := 100 } ]
    connections :=
      [ { id := 10, crawlSessionId := 1, name := "Jane Doe", headline := ""
          profileUrl := "", connectionDegree := 1 }
      , { id := 11, crawlSessionId := 2, name := "John Smith", headline := ""
          profileUrl := "", connectionDegree := 1 } ]
    companies := [acmeCompanyRow]
    companyConnections :=
      [ { id := 20, companyId := 7, connectionId := 10, crawlSessionId := 1
          connectionPath := "You -> Jane Doe" }
      , { id := 21, companyId := 7, connectionId := 11, crawlSessionId := 2
          connectionPath := "You -> John Smith" } ]
    nextId := 22 }

/-! # Theorems -/

/-- Claim C1: upserting a company whose canonical `linkedinUrl` already
names a `Company` row leaves the store unchanged (in particular it
creates no second row) and returns the identifier of the existing row,
and the `linkedinUrl` column stays pairwise-distinct across the store. -/
theorem upsertCompany_reuses_existing_row (store : Store) (input : CompanyInput)
    (r : Company) (hmem : r ∈ store.companies)
    (hurl : r.linkedinUrl = input.linkedinUrl)
    (huniq : store.companies.Pairwise (fun a b => a.linkedinUrl ≠ b.linkedinUrl)) :
    upsertCompany store input = (store, r.id) ∧
    (upsertCompany store input).1.companies.Pairwise
      (fun a b => a.linkedinUrl ≠ b.linkedinUrl) := by
  have hfind : ∃ a, getCompanyByLinkedInUrl store input.linkedinUrl = some a := by
    have : (store.companies.find? (fun c => c.linkedinUrl == input.linkedinUrl)).isSome := by
      rw [List.find?_isSome]
      exact ⟨r, hmem, by simp [hurl]⟩
    exact Option.isSome_iff_exists.mp this
  obtain ⟨a, ha⟩ := hfind
  have hamem : a ∈ store.companies := List.mem_of_find?_eq_some ha
  have haurl : a.linkedinUrl = input.linkedinUrl := by
    have := List.find?_some ha
    simpa using this
  have har : a = r := by
    by_contra hne
    have hsymm : Symmetric (fun x y : Company => x.linkedinUrl ≠ y.linkedinUrl) :=
      fun x y h => (Ne.symm h)
    exact (huniq.forall hsymm hamem hmem hne) (haurl.trans hurl.symm)
  have hres : upsertCompany store input = (store, r.id) := by
    unfold upsertCompany
    rw [ha, har]
  exact ⟨hres, by rw [hres]; exact huniq⟩

/-- Witness for C1 at a concrete one-company store. -/
theorem upsertCompany_reuses_existing_row_witness :
    upsertCompany acmeStore acmeInput = (acmeStore, 7) ∧
    (upsertCompany acmeStore acmeInput).1.companies.Pairwise
      (fun a b => a.linkedinUrl ≠ b.linkedinUrl) :=
  upsertCompany_reuses_existing_row acmeStore acmeInput acmeCompanyRow
    (by simp [acmeStore]) rfl (by simp [acmeStore])

/-- Claim C5: deleting a crawl session removes exactly the `Connection`
and `CompanyConnection` rows carrying that session id — rows of other
sessions survive — and removes no `Company` rows.  The hypothesis is the
foreign-key consistency the application maintains: a junction row's
`connectionId` only ever names a connection of the junction row's own
session. -/
theorem deleteCrawlSession_session_scoped (store : Store) (sid : Nat)
    (hfk : ∀ cc ∈ store.companyConnections, ∀ conn ∈ store.connections,
      conn.id = cc.connectionId → conn.crawlSessionId = cc.crawlSessionId) :
    (deleteCrawlSession store sid).connections
        = store.connections.filter (fun c => !(c.crawlSessionId == sid)) ∧
    (deleteCrawlSession store sid).companyConnections
        = store.companyConnections.filter (fun cc => !(cc.crawlSessionId == sid)) ∧
    (deleteCrawlSession store sid).companies = store.companies := by
  refine ⟨rfl, ?_, rfl⟩
  show store.companyConnections.filter _ = _
  refine List.filter_congr ?_
  intro cc hcc
  by_cases hs : cc.crawlSessionId = sid
  · simp [hs]
  · have hnotdead : ((store.connections.filter
        (fun c => c.crawlSessionId == sid)).map (fun c => c.id)).contains
          cc.connectionId = false := by
      rw [Bool.eq_false_iff]
      intro hcontains
      have hmemid : cc.connectionId ∈ (store.connections.filter
          (fun c => c.crawlSessionId == sid)).map (fun c => c.id) := by
        simpa using hcontains
      obtain ⟨conn, hconnmem, hconnid⟩ := List.mem_map.mp hmemid
      have hconn : conn ∈ store.connections ∧ conn.crawlSessionId = sid := by
        have := List.mem_filter.mp hconnmem
        exact ⟨this.1, by simpa using this.2⟩
      exact hs ((hfk cc hcc conn hconn.1 hconnid).symm.trans hconn.2)
    simp only [hnotdead, Bool.not_false, Bool.and_true]

/-- Witness for C5: a two-session store in which deletion of session 1
keeps exactly session 2's rows and all companies. -/
theorem deleteCrawlSession_session_scoped_witness :
    (deleteCrawlSession twoSessionStore 1).connections
        = twoSessionStore.connections.filter (fun c => !(c.crawlSessionId == 1)) ∧
    (deleteCrawlSession twoSessionStore 1).companyConnections
        = twoSessionStore.companyConnections.filter (fun cc => !(cc.crawlSessionId == 1)) ∧
    (deleteCrawlSession twoSessionStore 1).companies = twoSessionStore.companies :=
  deleteCrawlSession_session_scoped twoSessionStore 1 (by decide)

/-- Helper: a partial session update never changes the row id. -/
theorem applyUpdates_id (s : CrawlSession) (u : SessionUpdates) :
    (applyUpdates s u).id = s.id := rfl

/-- Helper: reading a session back after `updateCrawlSession` sees the
updates applied to the previously stored row. -/
theorem find?_update_sessions (l : List CrawlSession) (sid : Nat) (u : SessionUpdates) :
    (l.map (fun s => if s.id == sid then applyUpdates s u else s)).find?
        (fun s => s.id == sid)
      = (l.find? (fun s => s.id == sid)).map (fun s => applyUpdates s u) := by
  induction l with
  | nil => rfl
  | cons hd tl ih =>
    cases hbeq : (hd.id == sid) with
    | true =>
      have h1 : ((applyUpdates hd u).id == sid) = true := by
        rw [applyUpdates_id]
        exact hbeq
      rw [List.map_cons, if_pos hbeq,
        List.find?_cons_of_pos (p := fun s : CrawlSession => s.id == sid) _ h1,
        List.find?_cons_of_pos (p := fun s : CrawlSession => s.id == sid) _ hbeq]
      rfl
    | false =>
      have h0 : ¬((hd.id == sid) = true) := by simp [hbeq]
      rw [List.map_cons, if_neg h0,
        List.find?_cons_of_neg (p := fun s : CrawlSession => s.id == sid) _ h0,
        List.find?_cons_of_neg (p := fun s : CrawlSession => s.id == sid) _ h0, ih]

/-- Helper: `getCrawlSession` after `updateCrawlSession` on the same id. -/
theorem getCrawlSession_update (store : Store) (sid : Nat) (u : SessionUpdates) :
    getCrawlSession (updateCrawlSession store sid u) sid
      = (getCrawlSession store sid).map (fun s => applyUpdates s u) := by
  unfold getCrawlSession updateCrawlSession
  exact find?_update_sessions store.sessions sid u

/-- Counterexample for C3: session 1 of `twoSessionStore` is in the
terminal status `completed`, yet the start operation is not rejected on
it — its very first store write puts the session back into `running`
with progress 0, and the run as a whole changes the row. -/
theorem startCrawl_mutates_terminal_session :
    (getCrawlSession twoSessionStore 1).map (fun s => s.status) = some .completed ∧
    postStartCrawl twoSessionStore 1 (.crawlRun [] (.error "boom")) ≠ twoSessionStore ∧
    (getCrawlSession (updateCrawlSession twoSessionStore 1
        { status := some .running, progress := some 0 }) 1).map (fun s => s.status)
      = some .running := by
  refine ⟨by decide, ?_, by decide⟩
  decide

/-- Claim C3 (amended): the start operation's guard rejects only
sessions whose status is `running`; a session in a terminal status
(`completed` or `failed`) is started again — the run proceeds and its
first write transitions the session back to `running` with progress 0. -/
theorem postStartCrawl_guards_only_running (store : Store) (sid : Nat)
    (s : CrawlSession) (outcome : CrawlOutcome)
    (h : getCrawlSession store sid = some s) :
    (s.status = .running → postStartCrawl store sid outcome = store) ∧
    (s.status ≠ .running →
      postStartCrawl store sid outcome = startCrawlProcess store sid s.mode outcome ∧
      (getCrawlSession (updateCrawlSession store sid
          { status := some .running, progress := some 0 }) sid).map (fun t => t.status)
        = some .running) := by
  refine ⟨fun hr => ?_, fun hr => ⟨?_, ?_⟩⟩
  · unfold postStartCrawl
    rw [h]
    simp [hr]
  · unfold postStartCrawl
    rw [h]
    simp [hr]
  · rw [getCrawlSession_update, h]
    rfl

/-- Witness for the amended C3 at session 2 of the concrete store
(status `completed`, hence restarted). -/
theorem postStartCrawl_guards_only_running_witness :
    ((CrawlSession.mk 2 .first_connections .completed 100 none none none).status
        = .running →
      postStartCrawl twoSessionStore 2 (.crawlRun [] (.ok ())) = twoSessionStore) ∧
    ((CrawlSession.mk 2 .first_connections .completed 100 none none none).status
        ≠ .running →
      postStartCrawl twoSessionStore 2 (.crawlRun [] (.ok ()))
          = startCrawlProcess twoSessionStore 2
              (CrawlSession.mk 2 .first_connections .completed 100 none none none).mode
              (.crawlRun [] (.ok ())) ∧
      (getCrawlSession (updateCrawlSession twoSessionStore 2
          { status := some .running, progress := some 0 }) 2).map (fun t => t.status)
        = some .running) :=
  postStartCrawl_guards_only_running twoSessionStore 2
    (CrawlSession.mk 2 .first_connections .completed 100 none none none)
    (.crawlRun [] (.ok ())) (by decide)

/-- Helper: folding the progress-callback updates over a report list
sets the session's progress to the last rounded report (or leaves it
unchanged when no report was made). -/
theorem getCrawlSession_fold_progress (reports : List ℚ) (store : Store) (sid : Nat) :
    getCrawlSession (reports.foldl (fun st r =>
        updateCrawlSession st sid { progress := some (jsRound r) }) store) sid
      = (getCrawlSession store sid).map (fun s =>
          { s with progress := (reports.map jsRound).getLastD s.progress }) := by
  induction reports generalizing store with
  | nil => cases h : getCrawlSession store sid <;> simp [h]
  | cons r rest ih =>
    rw [List.foldl_cons, ih, getCrawlSession_update]
    cases getCrawlSession store sid with
    | none => rfl
    | some s =>
      have hgl : (List.map jsRound (r :: rest)).getLastD s.progress
          = (List.map jsRound rest).getLastD (jsRound r) := by
        rw [List.map_cons, List.getLastD_cons]
      simp only [Option.map_some']
      rw [hgl]
      rfl

/-- Helper: the crawl functions' wrapped error message is never empty. -/
theorem crawlFailureMessage_ne_empty (mode : Mode) (inner : String) :
    crawlFailureMessage mode inner ≠ "" := by
  cases mode <;>
  · intro h
    have h2 := congrArg String.data h
    simp [crawlFailureMessage, String.data_append] at h2

/-- Claim C8: when the mode crawl function throws after reporting some
progress, the session ends `failed`, its `error` field records the
thrown error's (non-empty) message, and its `progress` stays at the
last reported value — neither reset to 0 nor forced to 100. -/
theorem crawl_throw_yields_failed_with_last_progress (store : Store) (sid : Nat)
    (mode : Mode) (s : CrawlSession) (reports : List ℚ) (inner : String)
    (h : getCrawlSession store sid = some s) :
    (getCrawlSession
        (startCrawlProcess store sid mode (.crawlRun reports (.error inner))) sid).map
        (fun t => t.status) = some .failed ∧
    (getCrawlSession
        (startCrawlProcess store sid mode (.crawlRun reports (.error inner))) sid).map
        (fun t => t.error) = some (some (crawlFailureMessage mode inner)) ∧
    crawlFailureMessage mode inner ≠ "" ∧
    (getCrawlSession
        (startCrawlProcess store sid mode (.crawlRun reports (.error inner))) sid).map
        (fun t => t.progress) = some ((reports.map jsRound).getLastD 5) := by
  unfold startCrawlProcess
  rw [getCrawlSession_update, getCrawlSession_fold_progress, getCrawlSession_update,
    getCrawlSession_update, h]
  exact ⟨rfl, rfl, crawlFailureMessage_ne_empty mode inner, rfl⟩

/-- Witness for C8: a concrete failing run over `twoSessionStore`. -/
theorem crawl_throw_yields_failed_with_last_progress_witness :
    (getCrawlSession
        (startCrawlProcess twoSessionStore 1 .first_connections
          (.crawlRun [10, 35] (.error "page.goto: Timeout 30000ms exceeded"))) 1).map
        (fun t => t.status) = some .failed ∧
    (getCrawlSession
        (startCrawlProcess twoSessionStore 1 .first_connections
          (.crawlRun [10, 35] (.error "page.goto: Timeout 30000ms exceeded"))) 1).map
        (fun t => t.error)
      = some (some (crawlFailureMessage .first_connections
          "page.goto: Timeout 30000ms exceeded")) ∧
    crawlFailureMessage .first_connections "page.goto: Timeout 30000ms exceeded" ≠ "" ∧
    (getCrawlSession
        (startCrawlProcess twoSessionStore 1 .first_connections
          (.crawlRun [10, 35] (.error "page.goto: Timeout 30000ms exceeded"))) 1).map
        (fun t => t.progress) = some ((([10, 35] : List ℚ).map jsRound).getLastD 5) :=
  crawl_throw_yields_failed_with_last_progress twoSessionStore 1 .first_connections
    (CrawlSession.mk 1 .first_connections .completed 100 none none none)
    [10, 35] "page.goto: Timeout 30000ms exceeded" (by decide)

/-- Helper: `Math.round` of an integer-valued rational. -/
theorem jsRound_intCast (z : ℤ) : jsRound (z : ℚ) = z := by
  unfold jsRound
  rw [Int.floor_eq_iff]
  constructor <;> norm_num

/-- Helper: `Math.round` is monotone. -/
theorem jsRound_mono {a b : ℚ} (h : a ≤ b) : jsRound a ≤ jsRound b :=
  Int.floor_le_floor (by linarith)

/-- Helper: the per-company progress checkpoint stays within `[60, 95]`. -/
theorem companyProgress_bounds (n k : Nat) (hk : k < n) :
    60 ≤ jsRound (60 + (((k : ℚ) + 1) / max (n : ℚ) 1) * 35) ∧
    jsRound (60 + (((k : ℚ) + 1) / max (n : ℚ) 1) * 35) ≤ 95 := by
  have hm : (1 : ℚ) ≤ max (n : ℚ) 1 := le_max_right _ _
  have hpos : (0 : ℚ) < max (n : ℚ) 1 := by linarith
  have hkn : ((k : ℚ) + 1) ≤ max (n : ℚ) 1 := by
    have h1 : ((k : ℚ) + 1) ≤ (n : ℚ) := by exact_mod_cast hk
    exact le_trans h1 (le_max_left _ _)
  have hfrac0 : (0 : ℚ) ≤ ((k : ℚ) + 1) / max (n : ℚ) 1 := by positivity
  have hfrac1 : ((k : ℚ) + 1) / max (n : ℚ) 1 ≤ 1 := by
    rw [div_le_one hpos]
    exact hkn
  constructor
  · have h60 : (60 : ℚ) ≤ 60 + (((k : ℚ) + 1) / max (n : ℚ) 1) * 35 := by nlinarith
    have := jsRound_mono h60
    rwa [show (60 : ℚ) = ((60 : ℤ) : ℚ) by norm_num, jsRound_intCast] at this
  · have h95 : 60 + (((k : ℚ) + 1) / max (n : ℚ) 1) * 35 ≤ 95 := by nlinarith
    have := jsRound_mono h95
    rwa [show (95 : ℚ) = ((95 : ℤ) : ℚ) by norm_num, jsRound_intCast] at this

/-- Helper: successive per-company checkpoints do not decrease. -/
theorem companyProgress_step (n k : Nat) :
    jsRound (60 + (((k : ℚ) + 1) / max (n : ℚ) 1) * 35)
      ≤ jsRound (60 + ((((k + 1 : ℕ) : ℚ) + 1) / max (n : ℚ) 1) * 35) := by
  apply jsRound_mono
  have hm : (1 : ℚ) ≤ max (n : ℚ) 1 := le_max_right _ _
  have hpos : (0 : ℚ) < max (n : ℚ) 1 := by linarith
  have hstep : ((k : ℚ) + 1) / max (n : ℚ) 1 ≤ (((k + 1 : ℕ) : ℚ) + 1) / max (n : ℚ) 1 := by
    gcongr
    linarith
  nlinarith

/-- Helper: a pointwise-monotone map over `range` is a `≤`-chain. -/
theorem chain'_le_map_range (f : ℕ → ℤ) (n : ℕ)
    (hf : ∀ k, k + 1 < n → f k ≤ f (k + 1)) :
    List.Chain' (· ≤ ·) ((List.range n).map f) := by
  rw [List.chain'_map]
  cases n with
  | zero => simp
  | succ m =>
    rw [List.chain'_range_succ]
    intro i hi
    exact hf i (by omega)

/-- Helper: an element picked by `getLast?` is in the list. -/
theorem mem_of_getLast_opt {l : List ℤ} {x : ℤ} (h : x ∈ l.getLast?) : x ∈ l := by
  obtain ⟨hne, rfl⟩ := List.mem_getLast?_eq_getLast h
  exact List.getLast_mem hne

/-- Helper: a `≤`-chain `[0, 10, 30, 60] ++ seg ++ [100, 100]` for any
chain `seg` whose elements lie in `[60, 100]`. -/
theorem chain'_fixed_checkpoints (seg : List ℤ) (hseg : List.Chain' (· ≤ ·) seg)
    (hmem : ∀ x ∈ seg, 60 ≤ x ∧ x ≤ 100) :
    List.Chain' (· ≤ ·) ([0, 10, 30, 60] ++ (seg ++ [100, 100])) := by
  rw [List.chain'_append, List.chain'_append]
  refine ⟨by norm_num [List.chain'_cons], ⟨hseg, by norm_num [List.chain'_cons], ?_⟩, ?_⟩
  · intro x hx y hy
    have hy100 : y = 100 := by simpa using hy.symm
    have hxle := (hmem x (mem_of_getLast_opt hx)).2
    omega
  · intro x hx y hy
    have hx60 : x = 60 := by simpa using hx.symm
    subst hx60
    cases seg with
    | nil =>
      have hy100 : y = 100 := by simpa using hy.symm
      omega
    | cons a t =>
      have hya : y = a := by simpa using hy.symm
      subst hya
      exact (hmem y (by simp)).1

/-- Helper: the progress-write trace in closed form. -/
theorem firstDegreeProgressWrites_eq (n : Nat) :
    firstDegreeProgressWrites n
      = 0 :: 5 :: 0 :: 10 :: 30 :: 60 ::
          (((List.range n).map fun k : ℕ =>
              jsRound (60 + (((k : ℚ) + 1) / max (n : ℚ) 1) * 35)) ++ [100, 100]) := by
  unfold firstDegreeProgressWrites firstDegreeReports
  rw [List.map_append, List.map_append, List.map_map]
  have h0 : jsRound 0 = 0 := by unfold jsRound; norm_num
  have h10 : jsRound 10 = 10 := by
    unfold jsRound
    rw [show (10 : ℚ) + 1 / 2 = 21 / 2 by norm_num]
    norm_num
  have h30 : jsRound 30 = 30 := by
    unfold jsRound
    rw [show (30 : ℚ) + 1 / 2 = 61 / 2 by norm_num]
    norm_num
  have h60 : jsRound 60 = 60 := by
    unfold jsRound
    rw [show (60 : ℚ) + 1 / 2 = 121 / 2 by norm_num]
    norm_num
  have h100 : jsRound 100 = 100 := by
    unfold jsRound
    rw [show (100 : ℚ) + 1 / 2 = 201 / 2 by norm_num]
    norm_num
  simp [h0, h10, h30, h60, h100, Function.comp]

/-- Helper: the concrete one-company trace. -/
theorem firstDegreeProgressWrites_one :
    firstDegreeProgressWrites 1 = [0, 5, 0, 10, 30, 60, 95, 100, 100] := by
  have h95 : jsRound 95 = 95 := by
    unfold jsRound
    rw [show (95 : ℚ) + 1 / 2 = 191 / 2 by norm_num]
    norm_num
  rw [firstDegreeProgressWrites_eq]
  norm_num [List.range_succ, h95]

/-- Counterexample for C4: on a successful one-company run the written
progress sequence is `[0, 5, 0, 10, 30, 60, 95, 100, 100]` — the crawl
function re-reports 0 after the orchestrator has already written 5, so
the sequence is not monotonically non-decreasing. -/
theorem progress_writes_not_monotone :
    ¬ List.Chain' (· ≤ ·) (firstDegreeProgressWrites 1) := by
  rw [firstDegreeProgressWrites_one]
  norm_num [List.chain'_cons]

/-- Claim C4 (amended): every progress value written during a
successful `first_connections` run is an integer in `[0, 100]`, and the
sequence is non-decreasing from the crawl function's first checkpoint
onwards — the single decrease in the full sequence is the `5 → 0` drop
at the hand-off from the orchestrator's post-login write to the crawl
function's opening checkpoint. -/
theorem firstDegree_progress_amended (n : Nat) :
    ((firstDegreeProgressWrites n).all
        (fun v => decide (0 ≤ v) && decide (v ≤ 100))) = true ∧
    List.Chain' (· ≤ ·) ((firstDegreeProgressWrites n).drop 2) := by
  have hmem : ∀ x ∈ (List.range n).map (fun k : ℕ =>
      jsRound (60 + (((k : ℚ) + 1) / max (n : ℚ) 1) * 35)), 60 ≤ x ∧ x ≤ 100 := by
    intro x hx
    obtain ⟨k, hk, rfl⟩ := List.mem_map.mp hx
    obtain ⟨hlo, hhi⟩ := companyProgress_bounds n k (List.mem_range.mp hk)
    exact ⟨hlo, by omega⟩
  constructor
  · rw [firstDegreeProgressWrites_eq]
    apply List.all_eq_true.mpr
    intro v hv
    simp only [Bool.and_eq_true, decide_eq_true_eq]
    simp only [List.mem_cons, List.mem_append] at hv
    rcases hv with rfl | rfl | rfl | rfl | rfl | rfl | h7 | h8
    · norm_num
    · norm_num
    · norm_num
    · norm_num
    · norm_num
    · norm_num
    · have := hmem v h7
      omega
    · have hv100 : v = 100 := by simpa using h8
      omega
  · rw [firstDegreeProgressWrites_eq]
    show List.Chain' (· ≤ ·)
      ([0, 10, 30, 60] ++ (((List.range n).map fun k : ℕ =>
        jsRound (60 + (((k : ℚ) + 1) / max (n : ℚ) 1) * 35)) ++ [100, 100]))
    refine chain'_fixed_checkpoints _ ?_ hmem
    exact chain'_le_map_range _ n (fun k hk => companyProgress_step n k)

/-- Claim C7: when container pattern #7 (`".search-results li"`) of the
ranked selector list matches at least one element and none of patterns
#1–#6 matches any, the cascade selects pattern #7 and treats exactly its
elements as the cards — later patterns are never consulted, whatever
they would match (the statement quantifies over every document). -/
theorem selector_pattern_seven_wins {α : Type} (query : String → List α)
    (h1 : query "[data-test-result-container]" = [])
    (h2 : query ".reusable-search__result-container" = [])
    (h3 : query ".search-result__wrapper" = [])
    (h4 : query ".entity-result" = [])
    (h5 : query "[data-chameleon-result-urn]" = [])
    (h6 : query "li[data-row]" = [])
    (h7 : query ".search-results li" ≠ []) :
    selectCompanyCards query
      = some (".search-results li", query ".search-results li") := by
  have h7e : (query ".search-results li").isEmpty = false := by
    cases hq : query ".search-results li" with
    | nil => exact absurd hq h7
    | cons a t => rfl
  simp [selectCompanyCards, possibleSelectors, findFirstSelector,
    h1, h2, h3, h4, h5, h6, h7e]

/-- Witness for C7: a concrete document matching only pattern #7 and
the later pattern #11. -/
theorem selector_pattern_seven_wins_witness :
    selectCompanyCards patternSevenQuery = some (".search-results li", [0]) :=
  selector_pattern_seven_wins patternSevenQuery rfl rfl rfl rfl rfl rfl (by decide)

/-- Helper: the company upsert never touches the connections table. -/
theorem upsertCompany_connections (store : Store) (c : CompanyInput) :
    (upsertCompany store c).1.connections = store.connections := by
  unfold upsertCompany
  cases getCompanyByLinkedInUrl store c.linkedinUrl <;> rfl

/-- Helper: the named-connection loop only appends degree-1 rows. -/
theorem createNamedConnections_degree (sid cid : Nat) (company : CompanyCard)
    (st : Store) (names : List ConnEntry) :
    ∀ r ∈ (createNamedConnections sid cid company st names).connections,
      r ∈ st.connections ∨ r.connectionDegree = 1 := by
  induction names generalizing st with
  | nil => exact fun r hr => Or.inl hr
  | cons c rest ih =>
    intro r hr
    rcases ih _ r hr with hmem | hdeg
    · simp only [createCompanyConnection, createConnection] at hmem
      rcases List.mem_append.mp hmem with hin | hone
      · exact Or.inl hin
      · right
        simp only [List.mem_singleton] at hone
        subst hone
        rfl
    · exact Or.inr hdeg

/-- Helper: the persistence tail only appends degree-1 rows. -/
theorem persistCompanyConnectionRows_degree (st : Store) (sid cid : Nat)
    (company : CompanyCard) (names : List ConnEntry) :
    ∀ r ∈ (persistCompanyConnectionRows st sid cid company names).connections,
      r ∈ st.connections ∨ r.connectionDegree = 1 := by
  intro r hr
  unfold persistCompanyConnectionRows at hr
  split at hr
  · -- fallback-synthesis branch
    simp only [createCompanyConnection, createConnection] at hr
    rcases List.mem_append.mp hr with hin | hone
    · exact Or.inl hin
    · right
      simp only [List.mem_singleton] at hone
      subst hone
      rfl
  · -- named-connections branch
    exact createNamedConnections_degree _ _ _ _ _ r hr

/-- Helper: `processCompanyConnections` only appends degree-1 rows. -/
theorem processCompanyConnections_degree (env : CrawlEnv) (store : Store)
    (sid : Nat) (company : CompanyCard) :
    ∀ r ∈ (processCompanyConnections env store sid company).connections,
      r ∈ store.connections ∨ r.connectionDegree = 1 := by
  intro r hr
  unfold processCompanyConnections at hr
  rcases persistCompanyConnectionRows_degree _ _ _ _ _ r hr with hin | hdeg
  · rw [upsertCompany_connections] at hin
    exact Or.inl hin
  · exact Or.inr hdeg

/-- Helper: `analyzeFriendNetwork` only appends degree-1 rows. -/
theorem analyzeFriendNetwork_degree (env : CrawlEnv) (store : Store) (sid : Nat)
    (friend : Connection) :
    ∀ r ∈ (analyzeFriendNetwork env store sid friend).connections,
      r ∈ store.connections ∨ r.connectionDegree = 1 := by
  intro r hr
  unfold analyzeFriendNetwork at hr
  split at hr
  · exact Or.inl hr
  · exact Or.inl hr
  · split at hr
    · exact Or.inl hr
    · simp only [createCompanyConnection, createConnection] at hr
      rcases List.mem_append.mp hr with hin | hone
      · rw [upsertCompany_connections] at hin
        exact Or.inl hin
      · right
        simp only [List.mem_singleton] at hone
        subst hone
        rfl

/-- Helper: direct-connection extraction builds only degree-1 records. -/
theorem extractDirectConnections_degree (cards : List MemberCard) :
    ∀ c ∈ extractDirectConnections cards, c.connectionDegree = 1 := by
  intro c hc
  unfold extractDirectConnections at hc
  simp only [List.mem_flatMap] at hc
  obtain ⟨card, _, hc2⟩ := hc
  split at hc2
  · split at hc2
    · simp only [List.mem_singleton] at hc2
      subst hc2
      rfl
    · simp at hc2
  · simp at hc2

/-- Claim C9: every Connection row created by any pipeline path — the
named-connection loop and fallback synthesis of
`processCompanyConnections`, the friends-of-friends
`analyzeFriendNetwork`, and the records built by
`extractDirectConnections` — carries `connectionDegree = 1`; no code
path ever writes degree 2. -/
theorem connection_rows_always_degree_one (env envB : CrawlEnv) (store storeB : Store)
    (sid sidB : Nat) (company : CompanyCard) (friend : Connection)
    (cards : List MemberCard) :
    (∀ r ∈ (processCompanyConnections env store sid company).connections,
        r ∈ store.connections ∨ r.connectionDegree = 1) ∧
    (∀ r ∈ (analyzeFriendNetwork envB storeB sidB friend).connections,
        r ∈ storeB.connections ∨ r.connectionDegree = 1) ∧
    (∀ c ∈ extractDirectConnections cards, c.connectionDegree = 1) :=
  ⟨processCompanyConnections_degree env store sid company,
   analyzeFriendNetwork_degree envB storeB sidB friend,
   extractDirectConnections_degree cards⟩

/-- Witness for C9: the concrete member card yields a degree-1 record. -/
theorem connection_rows_always_degree_one_witness :
    ({ id := 0, crawlSessionId := 0, name := "Jane Doe", headline := "Engineer",
       profileUrl := "https://www.linkedin.com/in/janedoe/",
       connectionDegree := 1 : Connection }).connectionDegree = 1 :=
  (connection_rows_always_degree_one failingEnv failingEnv emptyStore emptyStore 1 1
      summaryCard
      { id := 0, crawlSessionId := 0, name := "Jane Doe", headline := "Engineer",
        profileUrl := "https://www.linkedin.com/in/janedoe/", connectionDegree := 1 }
      [memberCardDemo]).2.2
    { id := 0, crawlSessionId := 0, name := "Jane Doe", headline := "Engineer",
      profileUrl := "https://www.linkedin.com/in/janedoe/", connectionDegree := 1 }
    (by decide)

/-- Claim C10: every provisional company surviving the per-card cascade
has a trimmed name of length at least 2 and a URL containing
`linkedin.com/company/`; and any card whose winning link's href does
not contain `linkedin.com/company/` — e.g. a `/school/` link accepted
by strategy 4 — is dropped by the final filter. -/
theorem extracted_company_name_and_url (cards : List Card) (c : CompanyCandidate)
    (hc : c ∈ companiesFromCards cards) :
    (2 ≤ c.name.length ∧ includesSub c.linkedinUrl "linkedin.com/company/" = true) ∧
    (∀ card : Card,
      includesSub ((cascadeNameLink card).2.getD "") "linkedin.com/company/" = false →
      extractCardCompany card = none) := by
  constructor
  · obtain ⟨card, _, hex⟩ := List.mem_filterMap.mp hc
    unfold extractCardCompany at hex
    rcases hp : cascadeNameLink card with ⟨nOpt, lOpt⟩
    rw [hp] at hex
    dsimp only at hex
    cases nOpt with
    | none => exact absurd hex (by simp)
    | some rawName =>
      cases lOpt with
      | none => exact absurd hex (by simp)
      | some href =>
        dsimp only at hex
        by_cases hguard : (!(jsTrim rawName).isEmpty &&
            decide (1 < (jsTrim rawName).length) && !href.isEmpty &&
            includesSub href "linkedin.com/company/") = true
        · rw [if_pos hguard] at hex
          obtain rfl : ({ name := jsTrim rawName, linkedinUrl := href } :
              CompanyCandidate) = c := Option.some.inj hex
          simp only [Bool.and_eq_true, Bool.not_eq_true', decide_eq_true_eq] at hguard
          exact ⟨hguard.1.1.2, hguard.2⟩
        · rw [if_neg hguard] at hex
          exact absurd hex (by simp)
  · intro card hfalse
    unfold extractCardCompany
    rcases hp : cascadeNameLink card with ⟨nOpt, lOpt⟩
    dsimp only
    cases nOpt with
    | none => rfl
    | some rawName =>
      cases lOpt with
      | none => rfl
      | some href =>
        dsimp only
        have hfa : includesSub href "linkedin.com/company/" = false := by
          rw [hp] at hfalse
          simpa using hfalse
        rw [hfa]
        simp

/-- Witness for C10: a valid card passes with its name and company URL;
the school-link card is dropped. -/
theorem extracted_company_name_and_url_witness :
    (2 ≤ acmeCandidate.name.length ∧
      includesSub acmeCandidate.linkedinUrl "linkedin.com/company/" = true) ∧
    extractCardCompany schoolCard = none :=
  ⟨(extracted_company_name_and_url [validCompanyCard] acmeCandidate (by decide)).1,
   (extracted_company_name_and_url [validCompanyCard] acmeCandidate
      (by decide)).2 schoolCard (by decide)⟩

/-- Claim C2, evaluated at the failing input: `summaryCard` carries one
connection-summary placeholder, and navigation to its people-search URL
fails.  `extractIndividualConnections` catches the failure internally
and returns `[]`, so `processConnectionSummaryLinks` replaces the
placeholder with nothing — the `catch` branch in
`processConnectionSummaryLinks` that was meant to keep the original
placeholder can never run, because its callee never rejects.  The
pipeline then writes the synthesized fallback row `"2 Connections"`,
and the placeholder is never written as a Connection. -/
theorem summary_placeholder_dropped_on_nav_failure :
    (processConnectionSummaryLinks failingEnv summaryCard).connectionNames = [] ∧
    ((processCompanyConnections failingEnv emptyStore 1
        (processConnectionSummaryLinks failingEnv summaryCard)).connections.map
        (fun r => r.name)) = ["2 Connections"] ∧
    ¬ ("2 connections work here" ∈
        (processCompanyConnections failingEnv emptyStore 1
          (processConnectionSummaryLinks failingEnv summaryCard)).connections.map
          (fun r => r.name)) := by
  refine ⟨by decide, by decide, by decide⟩

/-- Counterexample for C6: `betaCard` carries no names and its info
text `"connections work here"` does not match the `<N>
connections/people` count pattern, so by the claim the synthesized name
should come from the direct-name regex (which does not match here) or
be the literal `"Network Connection"` — but the code writes
`"Your Network Connection"`, an intermediate fallback the claim omits. -/
theorem fallback_name_not_as_claimed :
    specCountPattern "connections work here" = none ∧
    anchoredNameCapture "connections work here" = none ∧
    fallbackConnectionName "connections work here" = "Your Network Connection" ∧
    "Your Network Connection" ≠ "Network Connection" ∧
    ((processCompanyConnections failingEnv emptyStore 1 betaCard).connections.map
        (fun r => r.name)) = ["Your Network Connection"] := by
  refine ⟨by decide, by decide, by decide, by decide, by decide⟩

/-- Helper: the company upsert never changes the junction table — in
the create branch the `INSERT OR REPLACE` replaces no row, because the
preceding lookup found no company with that URL. -/
theorem upsertCompany_companyConnections (store : Store) (c : CompanyInput) :
    (upsertCompany store c).1.companyConnections = store.companyConnections := by
  unfold upsertCompany
  cases h : getCompanyByLinkedInUrl store c.linkedinUrl with
  | some _ => rfl
  | none =>
    unfold createCompany
    dsimp only
    have hnil : store.companies.filter (fun r => r.linkedinUrl == c.linkedinUrl) = [] := by
      unfold getCompanyByLinkedInUrl at h
      rw [List.find?_eq_none] at h
      exact List.filter_eq_nil_iff.mpr (fun a ha => by simpa using h a ha)
    rw [hnil]
    simp

/-- Claim C6 (amended): for a card that reaches the fallback with no
names, exactly one Connection row plus one CompanyConnection row with
path `"You -> <name>"` is written; the name is the count-synthesis
(`"1st Degree Connection"` for N = 1, `"<N> Connections"` otherwise)
whenever the info text contains the (case-sensitive) word `connection`
or `people` and the numeric `<N> connections/people` pattern matches;
when a word is present but no count matches, the name is the info text
stripped of its work/hired-here clause and leading digits, degraded to
`"Your Network Connection"` or `"Network Contact"` when the stripped
text still contains `connection` or `people`; and the direct-name regex
/ literal `"Network Connection"` fallback applies only when the info
text contains neither word. -/
theorem fallback_synthesis_amended (env : CrawlEnv) (store : Store) (sid : Nat)
    (company : CompanyCard) (info : String)
    (hempty : company.connectionNames = [])
    (hpage : extractConnectionsFromCompanyPage env company.linkedinUrl = []) :
    ((processCompanyConnections env store sid company).connections.map (fun r => r.name)
        = store.connections.map (fun r => r.name)
          ++ [fallbackConnectionName company.connectionInfo]) ∧
    ((processCompanyConnections env store sid company).companyConnections.map
          (fun cc => cc.connectionPath)
        = store.companyConnections.map (fun cc => cc.connectionPath)
          ++ ["You -> " ++ fallbackConnectionName company.connectionInfo]) ∧
    (∀ N, (includesSub info "connection" || includesSub info "people") = true →
      firstNumericUnit info.toList = some N →
      fallbackConnectionName info
        = if N = 1 then "1st Degree Connection" else toString N ++ " Connections") ∧
    ((includesSub info "connection" || includesSub info "people") = true →
      firstNumericUnit info.toList = none →
      fallbackConnectionName info
        = (if includesCI (jsTrim (stripLeadingNumber (stripWorkHereSuffix info)))
              "connection" then "Your Network Connection"
           else if includesCI (jsTrim (stripLeadingNumber (stripWorkHereSuffix info)))
              "people" then "Network Contact"
           else jsTrim (stripLeadingNumber (stripWorkHereSuffix info)))) ∧
    ((includesSub info "connection" || includesSub info "people") = false →
      fallbackConnectionName info = (anchoredNameCapture info).getD "Network Connection") := by
  have hnames : (if company.connectionNames.isEmpty &&
      matchesConnectionsWorkHere company.connectionInfo then
        if (extractConnectionsFromCompanyPage env company.linkedinUrl).isEmpty then
          company.connectionNames
        else extractConnectionsFromCompanyPage env company.linkedinUrl
      else company.connectionNames) = [] := by
    rw [hempty, hpage]
    simp
  refine ⟨?_, ?_, ?_, ?_, ?_⟩
  · unfold processCompanyConnections
    dsimp only
    rw [hnames]
    unfold persistCompanyConnectionRows
    simp only [List.isEmpty_nil, if_true]
    simp only [createCompanyConnection, createConnection]
    rw [List.map_append, upsertCompany_connections]
    rfl
  · unfold processCompanyConnections
    dsimp only
    rw [hnames]
    unfold persistCompanyConnectionRows
    simp only [List.isEmpty_nil, if_true]
    simp only [createCompanyConnection, createConnection]
    rw [List.map_append, upsertCompany_companyConnections]
    rfl
  · intro N hinc hfn
    unfold fallbackConnectionName
    rw [hinc, if_pos rfl, hfn]
  · intro hinc hfn
    unfold fallbackConnectionName
    rw [hinc, if_pos rfl, hfn]
  · intro hinc
    unfold fallbackConnectionName
    rw [hinc]
    simp only [Bool.false_eq_true, if_false]
    cases anchoredNameCapture info <;> rfl

/-- Witness for the amended C6: the concrete card `betaCard` and one
info text per synthesized-name branch — a count match without any
work/hired-here phrase, a word without a count, and no word at all. -/
theorem fallback_synthesis_amended_witness :
    ((processCompanyConnections failingEnv emptyStore 1 betaCard).connections.map
        (fun r => r.name)
      = emptyStore.connections.map (fun r => r.name)
        ++ [fallbackConnectionName betaCard.connectionInfo]) ∧
    ((processCompanyConnections failingEnv emptyStore 1 betaCard).companyConnections.map
        (fun cc => cc.connectionPath)
      = emptyStore.companyConnections.map (fun cc => cc.connectionPath)
        ++ ["You -> " ++ fallbackConnectionName betaCard.connectionInfo]) ∧
    fallbackConnectionName "3 connections at Acme"
      = (if 3 = 1 then "1st Degree Connection" else toString 3 ++ " Connections") ∧
    fallbackConnectionName "Several people work here"
      = (if includesCI (jsTrim (stripLeadingNumber
            (stripWorkHereSuffix "Several people work here"))) "connection"
         then "Your Network Connection"
         else if includesCI (jsTrim (stripLeadingNumber
            (stripWorkHereSuffix "Several people work here"))) "people"
         then "Network Contact"
         else jsTrim (stripLeadingNumber (stripWorkHereSuffix "Several people work here"))) ∧
    fallbackConnectionName "John Smith works here"
      = (anchoredNameCapture "John Smith works here").getD "Network Connection" :=
  ⟨(fallback_synthesis_amended failingEnv emptyStore 1 betaCard "x" rfl rfl).1,
   (fallback_synthesis_amended failingEnv emptyStore 1 betaCard "x" rfl rfl).2.1,
   (fallback_synthesis_amended failingEnv emptyStore 1 betaCard "3 connections at Acme"
      rfl rfl).2.2.1 3 (by decide) (by decide),
   (fallback_synthesis_amended failingEnv emptyStore 1 betaCard "Several people work here"
      rfl rfl).2.2.2.1 (by decide) (by decide),
   (fallback_synthesis_amended failingEnv emptyStore 1 betaCard "John Smith works here"
      rfl rfl).2.2.2.2 (by decide)⟩

end JobNetworker
